import Mathlib

/-! Shallow embedding of the Marauder visualizer subsystem
(src/visualizer/visualizer.rs, src/src/visualizer/selection.rs,
src/src/visualizer/mgl.rs) together with theorems checking the
natural-language specification against it.

Machine integers (MInt = i32) are modelled as Int; the f32 values
(MFloat) that the claims reason about only through exact operations
(addition, halving) are modelled as rationals.  Collaborators whose
source is not part of the repository snapshot (the simulation core,
the event-visualizer animation bodies, the tile picker, the camera
and the geometry projection) are modelled from the spec, each marked
in its doc comment; their internals are irrelevant to the claims,
which are about the control flow and state updates of the code that
is present.
-/

namespace Marauder

/-- MInt from core/types.rs: machine integer, modelled as Int. -/
abbrev MInt := Int

/-- UnitId from core/types.rs (a wrapped MInt). -/
abbrev UnitId := Int

/-- PlayerId from core/types.rs (a wrapped MInt). -/
abbrev PlayerId := Int

/-- NodeId: identifier of a scene-graph entry (a wrapped MInt). -/
abbrev NodeId := Int

/-- MeshId from visualizer/mesh.rs (a wrapped MInt). -/
abbrev MeshId := Int

/-- MapPos: integer hex-map coordinate (Vec2 of MInt). -/
structure MapPos where
  x : Int
  y : Int
deriving DecidableEq

/-- Size2 from core/types.rs: window/viewport size. -/
structure Size2 where
  w : Int
  h : Int
deriving DecidableEq

/-- ScreenPos: integer screen coordinate (Vec2 of MInt). -/
structure ScreenPos where
  x : Int
  y : Int
deriving DecidableEq

/-- A 3-component render-space vector; f32 components modelled as ℚ. -/
structure Vec3Q where
  x : ℚ
  y : ℚ
  z : ℚ
deriving DecidableEq

/-- WorldPos: continuous render-space position. -/
abbrev WorldPos := Vec3Q

/-- The four bytes returned by a 1x1 RGBA pixel read, each as MInt. -/
abbrev Byte4 := Int × Int × Int × Int

/-- HashMap insert-or-replace, for the maps modelled as functions. -/
def hmUpdate {α β : Type} [DecidableEq α] (f : α → β) (k : α) (v : β) :
    α → β :=
  fun k1 => if k1 = k then v else f k1

/-- A game unit as seen by the visualizer: its id and map position. -/
structure GUnit where
  id : UnitId
  pos : MapPos
deriving DecidableEq

/-- GameState mirror: the units map (HashMap keyed by unit id),
modelled as a list in iteration order. -/
structure GameState where
  units : List GUnit
deriving DecidableEq

/-- HashMap-style lookup of a unit by id (state.units.get(&unit_id)). -/
def GameState.findUnit (st : GameState) (uid : UnitId) : Option GUnit :=
  st.units.find? (fun u => u.id == uid)

/-- core::Event, the tagged variants emitted by the simulation. -/
inductive Event where
  | move (unit_id : UnitId) (path : List MapPos)
  | endTurn (old_id new_id : PlayerId)
  | createUnit (id : UnitId) (pos : MapPos)
  | attackUnit (attacker defender : UnitId)
deriving DecidableEq

/-- core::Command, the commands the visualizer sends to the simulation. -/
inductive Command where
  | endTurn
  | createUnit (pos : MapPos)
  | attackUnit (attacker defender : UnitId)
  | move (unit_id : UnitId) (path : List MapPos)
deriving DecidableEq

/-- Modelled from the spec: the simulation collaborator core::Core
(core.rs is not under src/).  It exposes get_event() -> optional Event
(a FIFO queue of pending events), do_command (recorded in a command
log), and player_id().  Only this interface is relevant to the claims. -/
structure Core where
  player_id : PlayerId
  events : List Event
  commands : List Command
deriving DecidableEq

/-- Modelled from the spec: do_command dispatches one command to the
simulation; modelled as appending it to the command log. -/
def Core.do_command (c : Core) (cmd : Command) : Core :=
  { c with commands := c.commands ++ [cmd] }

/-- EventVisualizer variant tags, one per Event variant
(EventMoveVisualizer, EventEndTurnVisualizer, EventCreateUnitVisualizer,
EventAttackUnitVisualizer). -/
inductive EVVariant where
  | moveV (unit_id : UnitId) (path : List MapPos)
  | endTurnV
  | createUnitV (id : UnitId) (pos : MapPos)
  | attackUnitV (attacker defender : UnitId)
deriving DecidableEq

/-- Modelled from the spec: the EventVisualizer life-cycle states
NotStarted -> Running -> Finished (event_visualizer.rs is not under src/). -/
inductive EVPhase where
  | notStarted
  | running
  | finished
deriving DecidableEq

/-- Modelled from the spec: an EventVisualizer instance — the variant it
was built for, its life-cycle phase, and a flag abstracting whether its
interpolation has reached the terminal fraction (event_visualizer.rs is
not under src/; the animation bodies are abstracted by Ext below). -/
structure EventVisualizer where
  variant : EVVariant
  phase : EVPhase
  finishedFlag : Bool
deriving DecidableEq

/-- Modelled from the spec: is_finished() is a pure predicate, true once
the interpolation has reached its terminal fraction. -/
def EventVisualizer.is_finished (ev : EventVisualizer) : Bool :=
  ev.finishedFlag

/-- A scene-graph node: position, rotation, optional mesh, children
(one level of nesting, children stored by value). -/
inductive SceneNode where
  | mk (pos : WorldPos) (rot : ℚ) (mesh_id : Option MeshId)
      (children : List SceneNode)

/-- Position of a scene node. -/
def SceneNode.pos : SceneNode → WorldPos
  | .mk p _ _ _ => p

/-- Rotation of a scene node. -/
def SceneNode.rot : SceneNode → ℚ
  | .mk _ r _ _ => r

/-- Mesh id of a scene node. -/
def SceneNode.mesh_id : SceneNode → Option MeshId
  | .mk _ _ m _ => m

/-- Children of a scene node. -/
def SceneNode.children : SceneNode → List SceneNode
  | .mk _ _ _ c => c

/-- Overwrite only the position of a scene node (node.pos = ...). -/
def SceneNode.setPos : SceneNode → WorldPos → SceneNode
  | .mk _ r m c, p => .mk p r m c

/-- Scene: mapping from NodeId to SceneNode (a HashMap, modelled as a
partial function). -/
structure Scene where
  nodes : NodeId → Option SceneNode

/-- Modelled from the spec: the orbit camera state (camera.rs is not
under src/): horizontal angle, vertical angle, zoom distance.  The
camera.move(direction) translation is abstracted as recording the
requested direction. -/
structure Camera where
  x_angle : ℚ
  z_angle : ℚ
  zoom : ℚ
  moves : List ℚ

/-- Modelled from the spec: camera.move applies a fixed increment of
motion in the given direction; recorded abstractly. -/
def Camera.moveDir (c : Camera) (dir : ℚ) : Camera :=
  { c with moves := c.moves ++ [dir] }

/-- Modelled from the spec: the TilePicker's persistent state relevant
to the claims — the window size its offscreen buffer was built for
(tile_picker.rs is not under src/). -/
structure TilePicker where
  win_size : Size2
deriving DecidableEq

/-- Modelled from the spec: set_win_size recreates the offscreen buffer
at the new window size. -/
def TilePicker.set_win_size (tp : TilePicker) (sz : Size2) : TilePicker :=
  { tp with win_size := sz }

/-- Modelled from the spec: the pathfinder collaborator (pathfinder.rs
is not under src/).  fill_map(state, unit) recomputes the reachable-cost
map; modelled as recording the state and unit it was last filled for. -/
structure Pathfinder where
  lastFill : Option (GameState × GUnit)
deriving DecidableEq

/-- Modelled from the spec: fill_map records the recomputation input. -/
def Pathfinder.fill_map (pf : Pathfinder) (st : GameState) (u : GUnit) :
    Pathfinder :=
  { pf with lastFill := some (st, u) }

/-- Abstract semantics of the external collaborators whose bodies are
not under src/: the animation scene effects of start/end/draw
(event_visualizer.rs), the authoritative state transition apply_event
(game_state.rs), path reconstruction get_path (pathfinder.rs) and the
pick-pass color decoding (tile_picker.rs).  The theorems quantify over
these, so they hold for every implementation of the collaborators. -/
structure Ext where
  evStart : EVVariant → Scene → Scene
  evEnd : EVVariant → Scene → Scene
  evDraw : EventVisualizer → Scene → EventVisualizer × Scene
  applyEvent : GameState → Event → GameState
  getPath : Pathfinder → MapPos → List MapPos
  decode : Byte4 → Option MapPos

/-- The Visualizer struct (visualizer.rs line 149): the fields the
claims are about.  Window-derived state (should_close, the right
mouse button) is inlined; the per-player HashMaps are functions. -/
structure VisState where
  should_close : Bool
  rmb_pressed : Bool
  mouse_pos : ℚ × ℚ
  camera : Camera
  tile_picker : TilePicker
  selected_tile_pos : Option MapPos
  selected_unit_id : Option UnitId
  scenes : PlayerId → Scene
  core : Core
  event : Option Event
  event_visualizer : Option EventVisualizer
  game_state : PlayerId → GameState
  pathfinders : PlayerId → Pathfinder

/-- Visualizer::unit_at_opt (visualizer.rs lines 213-223): the first
unit of the current player's game-state mirror occupying pos. -/
def unit_at_opt (s : VisState) (pos : MapPos) : Option GUnit :=
  (s.game_state s.core.player_id).units.find? (fun u => u.pos == pos)

/-- Visualizer::end_turn (visualizer.rs lines 255-258). -/
def end_turn (s : VisState) : VisState :=
  { s with core := s.core.do_command Command.endTurn,
           selected_unit_id := none }

/-- Visualizer::create_unit (visualizer.rs lines 260-269). -/
def create_unit (s : VisState) : VisState :=
  match s.selected_tile_pos with
  | some pos =>
    match unit_at_opt s pos with
    | none => { s with core := s.core.do_command (Command.createUnit pos) }
    | some _ => s
  | none => s

/-- Visualizer::attack_unit (visualizer.rs lines 271-281). -/
def attack_unit (s : VisState) : VisState :=
  match s.selected_tile_pos with
  | some pos =>
    match unit_at_opt s pos with
    | some u =>
      { s with core := s.core.do_command (Command.attackUnit 0 u.id) }
    | none => s
  | none => s

/-- The glfw keys the key handler distinguishes. -/
inductive Key where
  | escape | q | up | down | right | left | minus | equal
  | t | u | a | other
deriving DecidableEq

/-- Visualizer::handle_key_event (visualizer.rs lines 283-305): the
first match always runs (camera / quit keys); the command keys T/U/A
run only when no event visualizer is active. -/
def handle_key_event (s : VisState) (k : Key) : VisState :=
  let s1 : VisState :=
    match k with
    | .escape => { s with should_close := true }
    | .q => { s with should_close := true }
    | .up => { s with camera := s.camera.moveDir 270 }
    | .down => { s with camera := s.camera.moveDir 90 }
    | .right => { s with camera := s.camera.moveDir 0 }
    | .left => { s with camera := s.camera.moveDir 180 }
    | .minus => { s with camera := { s.camera with zoom := s.camera.zoom + 1 } }
    | .equal => { s with camera := { s.camera with zoom := s.camera.zoom - 1 } }
    | _ => s
  if s1.event_visualizer.isSome then s1
  else
    match k with
    | .t => end_turn s1
    | .u => create_unit s1
    | .a => attack_unit s1
    | _ => s1

/-- Visualizer::handle_cursor_pos_event (visualizer.rs lines 307-314). -/
def handle_cursor_pos_event (s : VisState) (pos : ℚ × ℚ) : VisState :=
  if s.rmb_pressed then
    { s with
      camera := { s.camera with
        z_angle := s.camera.z_angle + (s.mouse_pos.1 - pos.1) / 2,
        x_angle := s.camera.x_angle + (s.mouse_pos.2 - pos.2) / 2 },
      mouse_pos := pos }
  else
    { s with mouse_pos := pos }

/-- Visualizer::handle_mouse_button_event (visualizer.rs lines 316-335).
Returns none where the source would panic (a HashMap unwrap failing). -/
def handle_mouse_button_event (ext : Ext) (s : VisState) : Option VisState :=
  if s.event_visualizer.isSome then some s
  else
    match s.selected_tile_pos with
    | none => some s
    | some pos =>
      match unit_at_opt s pos with
      | some u =>
        let pid := s.core.player_id
        let st := s.game_state pid
        match st.findUnit u.id with
        | none => none
        | some u2 =>
          some { s with
            selected_unit_id := some u.id,
            pathfinders := hmUpdate s.pathfinders pid
              ((s.pathfinders pid).fill_map st u2) }
      | none =>
        match s.selected_unit_id with
        | some uid =>
          let pid := s.core.player_id
          let path := ext.getPath (s.pathfinders pid) pos
          some { s with core := s.core.do_command (Command.move uid path) }
        | none => some s

/-- The glfw window events handle_event distinguishes
(visualizer.rs lines 346-364; only key Press and left-button Press
reach the handlers). -/
inductive WindowEvent where
  | keyPress (k : Key)
  | cursorPos (x y : ℚ)
  | mouseLeftPress
  | sizeEvent (w h : Int)
  | otherEvent
deriving DecidableEq

/-- Visualizer::handle_event (visualizer.rs lines 346-364).  The
SizeEvent arm calls set_viewport (a pure GL call) and
tile_picker.set_win_size. -/
def handle_event (ext : Ext) (s : VisState) (e : WindowEvent) :
    Option VisState :=
  match e with
  | .keyPress k => some (handle_key_event s k)
  | .cursorPos x y => some (handle_cursor_pos_event s (x, y))
  | .mouseLeftPress => handle_mouse_button_event ext s
  | .sizeEvent w h =>
    some { s with tile_picker := s.tile_picker.set_win_size (Size2.mk w h) }
  | .otherEvent => some s

/-- Visualizer::handle_events (visualizer.rs lines 366-370): dispatch
each pending window event in order. -/
def handleEvents (ext : Ext) (s : VisState) :
    List WindowEvent → Option VisState
  | [] => some s
  | e :: es =>
    match handle_event ext s e with
    | none => none
    | some s1 => handleEvents ext s1 es

/-- read_pixel_bytes (mgl.rs lines 189-206): a 1x1 RGBA read from the
framebuffer fb at the y-flipped coordinate reverted_h = height - y. -/
def read_pixel_bytes (fb : Int → Int → Byte4) (win_size : Size2)
    (mouse_pos : ScreenPos) : Byte4 :=
  let height := win_size.h
  let reverted_h := height - mouse_pos.y
  fb mouse_pos.x reverted_h

/-- Modelled from the spec: TilePicker.pick_tile (tile_picker.rs is not
under src/): render the pick pass with the current camera into the
offscreen buffer (abstracted as fb, which the caller derives from the
camera), read one pixel at the pointer position through
read_pixel_bytes, and decode the color into an optional map position
(background sentinel and out-of-bounds decode to none, via Ext.decode). -/
def pick_tile (ext : Ext) (fb : Int → Int → Byte4) (tp : TilePicker)
    (m : ScreenPos) : Option MapPos :=
  ext.decode (read_pixel_bytes fb tp.win_size m)

/-- Rust `as MInt` cast of an f32: truncation toward zero, on ℚ. -/
def truncQ (q : ℚ) : Int :=
  if 0 ≤ q then ⌊q⌋ else ⌈q⌉

/-- Visualizer::pick_tile (visualizer.rs lines 372-379): store the pick
result for the current (truncated) pointer position. -/
def pickStep (ext : Ext) (fb : Int → Int → Byte4) (s : VisState) :
    VisState :=
  let m := ScreenPos.mk (truncQ s.mouse_pos.1) (truncQ s.mouse_pos.2)
  { s with selected_tile_pos := pick_tile ext fb s.tile_picker m }

/-- Visualizer::draw (visualizer.rs lines 238-249): the unit and map
draw calls are pure GL; the only state effect is the active event
visualizer's draw on the current player's scene, when one is active. -/
def drawStep (ext : Ext) (s : VisState) : VisState :=
  match s.event_visualizer with
  | none => s
  | some v =>
    let pid := s.core.player_id
    let p := ext.evDraw v (s.scenes pid)
    { s with
      event_visualizer := some p.1,
      scenes := hmUpdate s.scenes pid p.2 }

/-- Visualizer::make_event_visualizer (visualizer.rs lines 381-396):
construct the visualizer variant matching the event. -/
def make_event_visualizer (e : Event) : EventVisualizer :=
  { variant :=
      match e with
      | .move unit_id path => .moveV unit_id path
      | .endTurn _ _ => .endTurnV
      | .createUnit id pos => .createUnitV id pos
      | .attackUnit a d => .attackUnitV a d,
    phase := .notStarted,
    finishedFlag := false }

/-- The externally visible calls the logic step makes, recorded as a
trace so the claims about call order and multiplicity can be stated. -/
inductive Action where
  | getEvent (res : Option Event)
  | startCall (v : EVVariant)
  | endCall (v : EVVariant)
  | applyEventCall (e : Event)
  | fillMapCall (st : GameState) (u : GUnit)
deriving DecidableEq

/-- Whether an action is an end call. -/
def Action.isEndCall : Action → Bool
  | .endCall _ => true
  | _ => false

/-- Visualizer::logic (visualizer.rs lines 398-422), instrumented with
the trace of external calls it makes.  Returns none where the source
would panic (event.get_ref() or units.get() failing). -/
def logic (ext : Ext) (s : VisState) : Option (VisState × List Action) :=
  match s.event_visualizer with
  | none =>
    match s.core.events with
    | [] => some (s, [Action.getEvent none])
    | e :: rest =>
      let vis := make_event_visualizer e
      let pid := s.core.player_id
      let vis1 := { vis with phase := EVPhase.running }
      some ({ s with
        core := { s.core with events := rest },
        event := some e,
        event_visualizer := some vis1,
        scenes := hmUpdate s.scenes pid
          (ext.evStart vis.variant (s.scenes pid)) },
        [Action.getEvent (some e), Action.startCall vis.variant])
  | some vis =>
    if vis.is_finished then
      match s.event with
      | none => none
      | some e =>
        let pid := s.core.player_id
        let state1 := ext.applyEvent (s.game_state pid) e
        let base : VisState := { s with
          scenes := hmUpdate s.scenes pid
            (ext.evEnd vis.variant (s.scenes pid)),
          game_state := hmUpdate s.game_state pid state1,
          event_visualizer := none,
          event := none }
        match s.selected_unit_id with
        | none =>
          some (base, [Action.endCall vis.variant, Action.applyEventCall e])
        | some uid =>
          match state1.findUnit uid with
          | none => none
          | some u =>
            some ({ base with
              pathfinders := hmUpdate s.pathfinders pid
                ((s.pathfinders pid).fill_map state1 u) },
              [Action.endCall vis.variant, Action.applyEventCall e,
               Action.fillMapCall state1 u])
    else some (s, [])

/-- Visualizer::tick (visualizer.rs lines 424-429): handle_events, then
logic, then pick_tile, then draw, in that order. -/
def tick (ext : Ext) (fb : Int → Int → Byte4) (evs : List WindowEvent)
    (s : VisState) : Option VisState :=
  match handleEvents ext s evs with
  | none => none
  | some s1 =>
    match logic ext s1 with
    | none => none
    | some p =>
      let s3 := pickStep ext fb p.1
      some (drawStep ext s3)

/-- Modelled from the spec: the reserved selection-marker NodeId
(scene.rs is not under src/): a reserved singleton id that never
collides with unit-derived ids; its concrete value is immaterial to
the claims. -/
def SELECTION_NODE_ID : NodeId := 666

/-- SelectionManager (selection.rs lines 16-19). -/
structure SelectionManager where
  unit_id : Option UnitId
  mesh_id : MeshId

/-- SelectionManager::new (selection.rs lines 22-27). -/
def SelectionManager.new (mesh_id : MeshId) : SelectionManager :=
  { unit_id := none, mesh_id := mesh_id }

/-- SelectionManager::set_unit_id (selection.rs lines 29-31). -/
def SelectionManager.set_unit_id (sm : SelectionManager) (uid : UnitId) :
    SelectionManager :=
  { sm with unit_id := some uid }

/-- SelectionManager::get_pos (selection.rs lines 33-39).  The geometry
projection (geom.rs, an external collaborator per the spec) is passed in
as map_pos_to_world_pos (mp2w) and lift.  Returns none where the source
would panic (unit_id or the unit lookup unwrap failing). -/
def SelectionManager.get_pos (mp2w : MapPos → Vec3Q) (lift : Vec3Q → Vec3Q)
    (sm : SelectionManager) (state : GameState) : Option WorldPos :=
  match sm.unit_id with
  | none => none
  | some uid =>
    match state.findUnit uid with
    | none => none
    | some u => some (lift (mp2w u.pos))

/-- SelectionManager::move_selection_marker (selection.rs lines 41-44):
overwrite the position of the existing marker node.  Returns none where
the source would panic (node or unit lookup unwrap failing). -/
def move_selection_marker (mp2w : MapPos → Vec3Q) (lift : Vec3Q → Vec3Q)
    (sm : SelectionManager) (state : GameState) (scene : Scene) :
    Option Scene :=
  match scene.nodes SELECTION_NODE_ID with
  | none => none
  | some node =>
    match sm.get_pos mp2w lift state with
    | none => none
    | some p =>
      let nodes1 :=
        hmUpdate scene.nodes SELECTION_NODE_ID (some (node.setPos p))
      some { nodes := nodes1 }

/-- SelectionManager::create_selection_marker (selection.rs lines
46-63): set the selected unit id, remove any existing marker node, then
insert a fresh marker node at the unit's lifted world position. -/
def create_selection_marker (mp2w : MapPos → Vec3Q) (lift : Vec3Q → Vec3Q)
    (sm : SelectionManager) (state : GameState) (scene : Scene)
    (uid : UnitId) : Option (SelectionManager × Scene) :=
  let sm1 := sm.set_unit_id uid
  match sm1.get_pos mp2w lift state with
  | none => none
  | some p =>
    let nodes1 :=
      if (scene.nodes SELECTION_NODE_ID).isSome then
        hmUpdate scene.nodes SELECTION_NODE_ID none
      else scene.nodes
    let node := SceneNode.mk p 0 (some sm1.mesh_id) []
    let nodes2 := hmUpdate nodes1 SELECTION_NODE_ID (some node)
    some (sm1, { nodes := nodes2 })

/-- SelectionManager::deselect (selection.rs lines 65-68). -/
def deselect (sm : SelectionManager) (scene : Scene) :
    SelectionManager × Scene :=
  ({ sm with unit_id := none },
   { nodes := hmUpdate scene.nodes SELECTION_NODE_ID none })

/-- One call in a SelectionManager interaction sequence, with the game
state it is given. -/
inductive SelOp where
  | createOp (state : GameState) (uid : UnitId)
  | moveOp (state : GameState)
  | deselectOp

/-- Apply one SelectionManager call. -/
def selStep (mp2w : MapPos → Vec3Q) (lift : Vec3Q → Vec3Q) :
    SelectionManager × Scene → SelOp → Option (SelectionManager × Scene)
  | (sm, sc), .createOp st uid => create_selection_marker mp2w lift sm st sc uid
  | (sm, sc), .moveOp st =>
    (move_selection_marker mp2w lift sm st sc).map (fun sc1 => (sm, sc1))
  | (sm, sc), .deselectOp => some (deselect sm sc)

/-- Run a sequence of SelectionManager calls. -/
def runSel (mp2w : MapPos → Vec3Q) (lift : Vec3Q → Vec3Q)
    (p : SelectionManager × Scene) : List SelOp →
    Option (SelectionManager × Scene)
  | [] => some p
  | op :: ops =>
    match selStep mp2w lift p op with
    | none => none
    | some p1 => runSel mp2w lift p1 ops

/-- The C4 invariant: the marker node is present exactly when a unit is
selected. -/
def selInv (p : SelectionManager × Scene) : Prop :=
  (p.2.nodes SELECTION_NODE_ID).isSome = p.1.unit_id.isSome

/-! Concrete sample instances, used to evaluate the theorems on closed
inputs. -/

/-- A camera at rest. -/
def cam0 : Camera :=
  { x_angle := 0, z_angle := 0, zoom := 0, moves := [] }

/-- An empty scene. -/
def scene0 : Scene :=
  { nodes := fun _ => none }

/-- A simulation core with no pending events and an empty command log. -/
def core0 : Core :=
  { player_id := 0, events := [], commands := [] }

/-- A pathfinder that has not been filled yet. -/
def pf0 : Pathfinder :=
  { lastFill := none }

/-- A sample game state holding one unit, id 7, at tile (1, 2). -/
def gs1 : GameState :=
  { units := [{ id := 7, pos := { x := 1, y := 2 } }] }

/-- A baseline visualizer state: nothing selected, no active animation. -/
def st0 : VisState where
  should_close := false
  rmb_pressed := false
  mouse_pos := (0, 0)
  camera := cam0
  tile_picker := { win_size := { w := 0, h := 0 } }
  selected_tile_pos := none
  selected_unit_id := none
  scenes := fun _ => scene0
  core := core0
  event := none
  event_visualizer := none
  game_state := fun _ => { units := [] }
  pathfinders := fun _ => pf0

/-- Trivial instances of the abstract collaborators. -/
def ext0 : Ext where
  evStart := fun _ sc => sc
  evEnd := fun _ sc => sc
  evDraw := fun v sc => (v, sc)
  applyEvent := fun st _ => st
  getPath := fun _ _ => []
  decode := fun _ => none

/-- A sample framebuffer whose pixel encodes its own coordinate. -/
def fb0 : Int → Int → Byte4 := fun x y => (x, y, 0, 0)

/-- A running, not yet finished, end-turn visualizer. -/
def visRun : EventVisualizer :=
  { variant := EVVariant.endTurnV, phase := EVPhase.running,
    finishedFlag := false }

/-- A running end-turn visualizer whose animation has finished. -/
def visFin : EventVisualizer :=
  { variant := EVVariant.endTurnV, phase := EVPhase.running,
    finishedFlag := true }

/-- A state with an animation in flight. -/
def stAnim : VisState :=
  { st0 with event_visualizer := some visRun,
             event := some (Event.endTurn 0 1) }

/-- A sample geometric projection of a map position. -/
def mp2wW : MapPos → Vec3Q := fun p => { x := p.x, y := p.y, z := 0 }

/-- A sample lift of a world position off the floor plane. -/
def liftW : Vec3Q → Vec3Q := fun v => { x := v.x, y := v.y, z := v.z + 1 }

/-- A selection manager with unit 7 selected, using mesh 3. -/
def smSel : SelectionManager :=
  { unit_id := some 7, mesh_id := 3 }

/-- A sample marker node with nonzero rotation and a child-free body. -/
def nodeW : SceneNode :=
  SceneNode.mk (Vec3Q.mk 0 0 0) 5 (some 3) []

/-- A scene holding only the selection marker node. -/
def sceneW : Scene :=
  { nodes := hmUpdate scene0.nodes SELECTION_NODE_ID (some nodeW) }

/-- A state with no active animation and one queued end-turn event. -/
def stIdle : VisState :=
  { st0 with core := { core0 with events := [Event.endTurn 0 1] } }

/-- A state whose active animation has finished, with unit 7 selected
and present in the game-state mirror. -/
def stFin : VisState :=
  { st0 with event_visualizer := some visFin,
             event := some (Event.endTurn 0 1),
             selected_unit_id := some 7,
             game_state := fun _ => gs1 }

/-! Helper lemmas. -/

/-- Reading an updated map at the updated key gives the new value. -/
theorem hmUpdate_same {α β : Type} [DecidableEq α] (f : α → β) (k : α)
    (v : β) : hmUpdate f k v k = v := by
  simp [hmUpdate]

/-- Reading an updated map elsewhere gives the old value. -/
theorem hmUpdate_ne {α β : Type} [DecidableEq α] (f : α → β) (k k1 : α)
    (v : β) (h : k1 ≠ k) : hmUpdate f k v k1 = f k1 := by
  simp [hmUpdate, h]

/-- Each SelectionManager call preserves the marker-iff-selected
invariant. -/
theorem selStep_inv (mp2w : MapPos → Vec3Q) (lift : Vec3Q → Vec3Q)
    (p p1 : SelectionManager × Scene) (op : SelOp) (hinv : selInv p)
    (h : selStep mp2w lift p op = some p1) : selInv p1 := by
  obtain ⟨sm, sc⟩ := p
  cases op with
  | createOp st uid =>
    simp only [selStep, create_selection_marker] at h
    cases hg : (sm.set_unit_id uid).get_pos mp2w lift st with
    | none => rw [hg] at h; simp at h
    | some pos =>
      rw [hg] at h
      simp only [Option.some.injEq] at h
      subst h
      simp [selInv, SelectionManager.set_unit_id, hmUpdate_same]
  | moveOp st =>
    simp only [selStep, move_selection_marker] at h
    cases hn : sc.nodes SELECTION_NODE_ID with
    | none => rw [hn] at h; simp at h
    | some node =>
      rw [hn] at h
      cases hg : sm.get_pos mp2w lift st with
      | none => rw [hg] at h; simp at h
      | some pos =>
        rw [hg] at h
        simp only [Option.map_some', Option.some.injEq] at h
        subst h
        simp only [selInv, hmUpdate_same, Option.isSome_some] at hinv ⊢
        rw [hn] at hinv
        exact hinv.symm ▸ rfl
  | deselectOp =>
    simp only [selStep, deselect, Option.some.injEq] at h
    subst h
    simp [selInv, hmUpdate_same]

/-- Running any sequence of SelectionManager calls preserves the
marker-iff-selected invariant. -/
theorem runSel_inv (mp2w : MapPos → Vec3Q) (lift : Vec3Q → Vec3Q) :
    ∀ (ops : List SelOp) (p p1 : SelectionManager × Scene), selInv p →
      runSel mp2w lift p ops = some p1 → selInv p1 := by
  intro ops
  induction ops with
  | nil =>
    intro p p1 hinv h
    simp only [runSel, Option.some.injEq] at h
    subst h
    exact hinv
  | cons op ops ih =>
    intro p p1 hinv h
    simp only [runSel] at h
    cases hs : selStep mp2w lift p op with
    | none => rw [hs] at h; simp at h
    | some p2 =>
      rw [hs] at h
      exact ih p2 p1 (selStep_inv mp2w lift p p2 op hinv hs) h

/-! The claims. -/

/-- C10: issuing the EndTurn command through the key handler also
clears the current unit selection — after end_turn, selected_unit_id is
none whatever was selected before, and the only other change is the
dispatched CommandEndTurn. -/
theorem end_turn_clears_selection (s : VisState) :
    (end_turn s).selected_unit_id = none ∧
    end_turn s = { s with core := s.core.do_command Command.endTurn, selected_unit_id := none } :=
  ⟨rfl, rfl⟩

/-- C7: create_unit dispatches CommandCreateUnit if and only if a tile
is selected and no unit of the current player's game-state mirror
occupies it; otherwise the state is returned unchanged. -/
theorem create_unit_rejects_occupied (s : VisState) :
    (∀ pos, s.selected_tile_pos = some pos → unit_at_opt s pos = none →
      create_unit s = { s with core := s.core.do_command (Command.createUnit pos) }) ∧
    (∀ pos u, s.selected_tile_pos = some pos → unit_at_opt s pos = some u →
      create_unit s = s) ∧
    (s.selected_tile_pos = none → create_unit s = s) := by
  refine ⟨?_, ?_, ?_⟩
  · intro pos h1 h2
    simp [create_unit, h1, h2]
  · intro pos u h1 h2
    simp [create_unit, h1, h2]
  · intro h1
    simp [create_unit, h1]

/-- C7 witness: with tile (0, 0) selected and no unit on it, the
command is dispatched. -/
theorem create_unit_rejects_occupied_witness :
    create_unit { st0 with selected_tile_pos := some (MapPos.mk 0 0) } =
      { { st0 with selected_tile_pos := some (MapPos.mk 0 0) } with core := st0.core.do_command (Command.createUnit (MapPos.mk 0 0)) } :=
  (create_unit_rejects_occupied _).1 (MapPos.mk 0 0) rfl rfl

/-- C8: on pointer motion with the right (drag) button held, the camera
angles each gain half the pointer delta and the stored mouse position is
updated; without the button only the mouse position changes. -/
theorem cursor_drag_halves_delta (s : VisState) (p : ℚ × ℚ) :
    (s.rmb_pressed = true →
      handle_cursor_pos_event s p = { s with camera := { s.camera with z_angle := s.camera.z_angle + (s.mouse_pos.1 - p.1) / 2, x_angle := s.camera.x_angle + (s.mouse_pos.2 - p.2) / 2 }, mouse_pos := p }) ∧
    (s.rmb_pressed = false →
      handle_cursor_pos_event s p = { s with mouse_pos := p }) := by
  refine ⟨?_, ?_⟩ <;> intro h <;> simp [handle_cursor_pos_event, h]

/-- C8 witness: dragging from (4, 6) to (2, 2) adds 1 to the horizontal
angle and 2 to the vertical angle. -/
theorem cursor_drag_halves_delta_witness :
    (handle_cursor_pos_event { st0 with rmb_pressed := true, mouse_pos := (4, 6) } (2, 2)).camera.z_angle = 1 ∧
    (handle_cursor_pos_event { st0 with rmb_pressed := true, mouse_pos := (4, 6) } (2, 2)).camera.x_angle = 2 ∧
    (handle_cursor_pos_event { st0 with rmb_pressed := true, mouse_pos := (4, 6) } (2, 2)).mouse_pos = (2, 2) := by
  have h := (cursor_drag_halves_delta { st0 with rmb_pressed := true, mouse_pos := (4, 6) } (2, 2)).1 rfl
  rw [h]
  norm_num [cam0, st0]

/-- C6: while an EventVisualizer is active, the game-command inputs
no-op silently — the T (end turn), U (create unit) and A (attack) key
presses leave the state untouched, and a left mouse click returns the
state unchanged without failing — while the camera keys (zoom, motion)
still take effect. -/
theorem commands_noop_while_animating (ext : Ext) (s : VisState)
    (h : s.event_visualizer.isSome = true) :
    handle_key_event s Key.t = s ∧
    handle_key_event s Key.u = s ∧
    handle_key_event s Key.a = s ∧
    handle_mouse_button_event ext s = some s ∧
    (handle_key_event s Key.minus).camera.zoom = s.camera.zoom + 1 ∧
    (handle_key_event s Key.up).camera.moves = s.camera.moves ++ [270] := by
  refine ⟨?_, ?_, ?_, ?_, ?_, ?_⟩ <;>
    simp [handle_key_event, handle_mouse_button_event, Camera.moveDir, h]

/-- C6 witness: with an end-turn animation in flight, the T key is
ignored, a click is ignored, and zooming still works. -/
theorem commands_noop_while_animating_witness :
    handle_key_event stAnim Key.t = stAnim ∧
    handle_key_event stAnim Key.u = stAnim ∧
    handle_key_event stAnim Key.a = stAnim ∧
    handle_mouse_button_event ext0 stAnim = some stAnim ∧
    (handle_key_event stAnim Key.minus).camera.zoom = stAnim.camera.zoom + 1 ∧
    (handle_key_event stAnim Key.up).camera.moves = stAnim.camera.moves ++ [270] :=
  commands_noop_while_animating ext0 stAnim rfl

/-- C5: the single-pixel readback reads the framebuffer at the
y-flipped coordinate (x, H - y); resizing the window to (w, h) updates
the tile picker's stored window size, so subsequent picks read at the
new height h. -/
theorem pick_reads_y_flipped_and_tracks_resize (ext : Ext)
    (fb : Int → Int → Byte4) (s : VisState) (w h : Int) (ws : Size2)
    (mp : ScreenPos) :
    read_pixel_bytes fb ws mp = fb mp.x (ws.h - mp.y) ∧
    ∀ s1, handle_event ext s (WindowEvent.sizeEvent w h) = some s1 →
      s1.tile_picker.win_size = Size2.mk w h ∧
      ∀ m : ScreenPos, pick_tile ext fb s1.tile_picker m = ext.decode (fb m.x (h - m.y)) := by
  refine ⟨rfl, ?_⟩
  intro s1 hs1
  simp only [handle_event, Option.some.injEq] at hs1
  subst hs1
  exact ⟨rfl, fun m => rfl⟩

/-- C5 witness: at window height 600, the pixel for pointer (3, 4) is
read at (3, 596), and after a resize to 800x600 picks decode the pixel
at the flipped row. -/
theorem pick_reads_y_flipped_and_tracks_resize_witness :
    read_pixel_bytes fb0 (Size2.mk 800 600) (ScreenPos.mk 3 4) = fb0 3 596 ∧
    ({ st0 with tile_picker := { win_size := Size2.mk 800 600 } } : VisState).tile_picker.win_size = Size2.mk 800 600 ∧
    pick_tile ext0 fb0 ({ st0 with tile_picker := { win_size := Size2.mk 800 600 } } : VisState).tile_picker (ScreenPos.mk 3 4) = ext0.decode (fb0 3 596) := by
  have hthm := pick_reads_y_flipped_and_tracks_resize ext0 fb0 st0 800 600 (Size2.mk 800 600) (ScreenPos.mk 3 4)
  have h2 := hthm.2 { st0 with tile_picker := { win_size := Size2.mk 800 600 } } rfl
  refine ⟨?_, h2.1, ?_⟩
  · have h1 := hthm.1
    norm_num at h1
    exact h1
  · have h3 := h2.2 (ScreenPos.mk 3 4)
    norm_num at h3
    exact h3

/-- C4: starting from a fresh SelectionManager and a scene without the
marker node, after any successful sequence of create_selection_marker,
move_selection_marker and deselect calls the scene holds a node under
SELECTION_NODE_ID exactly when unit_id is set; and create always leaves
a freshly constructed marker node (any previous marker is removed
before the insert). -/
theorem selection_marker_iff_selected (mp2w : MapPos → Vec3Q)
    (lift : Vec3Q → Vec3Q) (mesh : MeshId) (sc0 : Scene) (ops : List SelOp)
    (sm1 : SelectionManager) (sc1 : Scene)
    (h0 : sc0.nodes SELECTION_NODE_ID = none)
    (hrun : runSel mp2w lift (SelectionManager.new mesh, sc0) ops = some (sm1, sc1)) :
    ((sc1.nodes SELECTION_NODE_ID).isSome = sm1.unit_id.isSome) ∧
    (∀ sm st sc uid smA scA, create_selection_marker mp2w lift sm st sc uid = some (smA, scA) →
      ∃ u, st.findUnit uid = some u ∧
        scA.nodes SELECTION_NODE_ID = some (SceneNode.mk (lift (mp2w u.pos)) 0 (some sm.mesh_id) []) ∧
        smA.unit_id = some uid) := by
  constructor
  · have hstart : selInv (SelectionManager.new mesh, sc0) := by
      simp [selInv, SelectionManager.new, h0]
    exact runSel_inv mp2w lift ops _ _ hstart hrun
  · intro sm st sc uid smA scA hc
    simp only [create_selection_marker, SelectionManager.set_unit_id,
      SelectionManager.get_pos] at hc
    cases hf : st.findUnit uid with
    | none => rw [hf] at hc; simp at hc
    | some u =>
      rw [hf] at hc
      simp only [Option.some.injEq, Prod.mk.injEq] at hc
      obtain ⟨hsm, hsc⟩ := hc
      refine ⟨u, rfl, ?_, ?_⟩
      · rw [← hsc]
        simp [hmUpdate_same]
      · rw [← hsm]

/-- C4 witness: select unit 7, track it, then deselect: the run
succeeds and the marker-iff-selected equation holds at the end. -/
theorem selection_marker_iff_selected_witness :
    ∃ sm1 sc1, runSel mp2wW liftW (SelectionManager.new 3, scene0) [SelOp.createOp gs1 7, SelOp.moveOp gs1, SelOp.deselectOp] = some (sm1, sc1) ∧
      (sc1.nodes SELECTION_NODE_ID).isSome = sm1.unit_id.isSome := by
  refine ⟨_, _, rfl, ?_⟩
  exact (selection_marker_iff_selected mp2wW liftW 3 scene0 [SelOp.createOp gs1 7, SelOp.moveOp gs1, SelOp.deselectOp] _ _ rfl rfl).1

/-- C9: move_selection_marker changes only the marker node's position
— to the lifted world position of the selected unit's map position —
leaving its rotation, mesh and children, and every other node of the
scene, unchanged. -/
theorem move_marker_updates_only_pos (mp2w : MapPos → Vec3Q)
    (lift : Vec3Q → Vec3Q) (sm : SelectionManager) (state : GameState)
    (scene : Scene) (node : SceneNode) (uid : UnitId) (u : GUnit)
    (hn : scene.nodes SELECTION_NODE_ID = some node)
    (hu : sm.unit_id = some uid)
    (hf : state.findUnit uid = some u) :
    ∃ scene1, move_selection_marker mp2w lift sm state scene = some scene1 ∧
      scene1.nodes SELECTION_NODE_ID = some (SceneNode.mk (lift (mp2w u.pos)) node.rot node.mesh_id node.children) ∧
      ∀ nid, nid ≠ SELECTION_NODE_ID → scene1.nodes nid = scene.nodes nid := by
  have hm : move_selection_marker mp2w lift sm state scene = some { nodes := hmUpdate scene.nodes SELECTION_NODE_ID (some (node.setPos (lift (mp2w u.pos)))) } := by
    simp [move_selection_marker, hn, SelectionManager.get_pos, hu, hf]
  refine ⟨_, hm, ?_, ?_⟩
  · show hmUpdate scene.nodes SELECTION_NODE_ID (some (node.setPos (lift (mp2w u.pos)))) SELECTION_NODE_ID = _
    rw [hmUpdate_same]
    cases node
    rfl
  · intro nid hne
    exact hmUpdate_ne scene.nodes SELECTION_NODE_ID nid _ hne

/-- C9 witness: moving the marker for unit 7 at tile (1, 2) rewrites
only the marker's position to the lifted projection of (1, 2). -/
theorem move_marker_updates_only_pos_witness :
    ∃ scene1, move_selection_marker mp2wW liftW smSel gs1 sceneW = some scene1 ∧
      scene1.nodes SELECTION_NODE_ID = some (SceneNode.mk (liftW (mp2wW (MapPos.mk 1 2))) nodeW.rot nodeW.mesh_id nodeW.children) ∧
      ∀ nid, nid ≠ SELECTION_NODE_ID → scene1.nodes nid = sceneW.nodes nid :=
  move_marker_updates_only_pos mp2wW liftW smSel gs1 sceneW nodeW 7
    (GUnit.mk 7 (MapPos.mk 1 2)) rfl rfl rfl

/-- C2: a tick is exactly the four phases input, logic, pick, draw in
that order — it succeeds exactly when the input and logic phases
succeed, and its result is the draw step applied to the pick step
applied to the logic step's output on the input phase's output. -/
theorem tick_runs_four_phases_in_order (ext : Ext) (fb : Int → Int → Byte4)
    (evs : List WindowEvent) (s : VisState) :
    (∀ out, tick ext fb evs s = some out →
      ∃ s1 p, handleEvents ext s evs = some s1 ∧ logic ext s1 = some p ∧
        out = drawStep ext (pickStep ext fb p.1)) ∧
    (∀ s1 p, handleEvents ext s evs = some s1 → logic ext s1 = some p →
      tick ext fb evs s = some (drawStep ext (pickStep ext fb p.1))) := by
  constructor
  · intro out hout
    simp only [tick] at hout
    cases h1 : handleEvents ext s evs with
    | none => simp [h1] at hout
    | some s1 =>
      simp only [h1] at hout
      cases h2 : logic ext s1 with
      | none => simp [h2] at hout
      | some p =>
        simp only [h2, Option.some.injEq] at hout
        exact ⟨s1, p, rfl, h2, hout.symm⟩
  · intro s1 p h1 h2
    simp [tick, h1, h2]

/-- C2 witness: a tick with no pending input on the baseline state runs
the four phases and returns the composed result. -/
theorem tick_runs_four_phases_in_order_witness :
    tick ext0 fb0 [] st0 = some (drawStep ext0 (pickStep ext0 fb0 st0)) :=
  (tick_runs_four_phases_in_order ext0 fb0 [] st0).2 st0
    (st0, [Action.getEvent none]) rfl rfl

/-- C1: while an EventVisualizer is active, the logic step never polls
the simulation — the event queue is untouched and no get_event call
appears in the trace; when none is active, the queue is polled once,
and when an Event is dequeued the matching visualizer variant is
constructed, start is called on it (its scene effect applied, its phase
set to Running) and the Event is retained in the state. -/
theorem logic_polls_only_when_idle (ext : Ext) (s : VisState) :
    (s.event_visualizer.isSome = true →
      ∀ p, logic ext s = some p →
        p.1.core.events = s.core.events ∧ ∀ eo, Action.getEvent eo ∉ p.2) ∧
    (s.event_visualizer = none →
      (s.core.events = [] → logic ext s = some (s, [Action.getEvent none])) ∧
      (∀ e rest, s.core.events = e :: rest →
        ∃ p, logic ext s = some p ∧
          p.1.core.events = rest ∧
          p.1.event = some e ∧
          p.1.event_visualizer = some { make_event_visualizer e with phase := EVPhase.running } ∧
          p.1.scenes s.core.player_id = ext.evStart (make_event_visualizer e).variant (s.scenes s.core.player_id) ∧
          p.2 = [Action.getEvent (some e), Action.startCall (make_event_visualizer e).variant])) := by
  constructor
  · intro hv p hp
    obtain ⟨p1, p2⟩ := p
    cases hev : s.event_visualizer with
    | none => rw [hev] at hv; simp at hv
    | some vis =>
      simp only [logic, hev] at hp
      cases hf : vis.is_finished with
      | false =>
        simp only [hf, Bool.false_eq_true, if_false, Option.some.injEq,
          Prod.mk.injEq] at hp
        obtain ⟨hp1, hp2⟩ := hp
        subst hp1
        subst hp2
        exact ⟨rfl, by simp⟩
      | true =>
        simp only [hf, if_true] at hp
        cases hevt : s.event with
        | none => rw [hevt] at hp; simp at hp
        | some e =>
          rw [hevt] at hp
          cases hsel : s.selected_unit_id with
          | none =>
            simp only [hsel, Option.some.injEq, Prod.mk.injEq] at hp
            obtain ⟨hp1, hp2⟩ := hp
            subst hp1
            subst hp2
            exact ⟨rfl, by simp⟩
          | some uid =>
            simp only [hsel] at hp
            cases hfu : (ext.applyEvent (s.game_state s.core.player_id) e).findUnit uid with
            | none => rw [hfu] at hp; simp at hp
            | some u =>
              rw [hfu] at hp
              simp only [Option.some.injEq, Prod.mk.injEq] at hp
              obtain ⟨hp1, hp2⟩ := hp
              subst hp1
              subst hp2
              exact ⟨rfl, by simp⟩
  · intro hev
    constructor
    · intro hemp
      simp [logic, hev, hemp]
    · intro e rest hcons
      have hl : logic ext s = some ({ s with core := { s.core with events := rest }, event := some e, event_visualizer := some { make_event_visualizer e with phase := EVPhase.running }, scenes := hmUpdate s.scenes s.core.player_id (ext.evStart (make_event_visualizer e).variant (s.scenes s.core.player_id)) }, [Action.getEvent (some e), Action.startCall (make_event_visualizer e).variant]) := by
        simp [logic, hev, hcons]
      exact ⟨_, hl, rfl, rfl, rfl, by simp [hmUpdate_same], rfl⟩

/-- C1 witness: from an idle state with one queued end-turn event, the
logic step dequeues it, retains it, and starts the matching end-turn
visualizer. -/
theorem logic_polls_only_when_idle_witness :
    ∃ p, logic ext0 stIdle = some p ∧
      p.1.event = some (Event.endTurn 0 1) ∧
      p.1.event_visualizer = some { make_event_visualizer (Event.endTurn 0 1) with phase := EVPhase.running } ∧
      p.2 = [Action.getEvent (some (Event.endTurn 0 1)), Action.startCall EVVariant.endTurnV] := by
  obtain ⟨p, hl, h1, h2, h3, h4, h5⟩ :=
    ((logic_polls_only_when_idle ext0 stIdle).2 rfl).2 (Event.endTurn 0 1) [] rfl
  exact ⟨p, hl, h2, h3, h5⟩

/-- C3: end is called exactly once per Event and only in a logic step
whose active visualizer is finished; in that step, after end, the
retained Event is applied to the local game-state mirror, the active
visualizer and retained Event are cleared, and the pathfinder fill is
recomputed against the updated state if and only if a unit is
selected. -/
theorem logic_end_exactly_once_then_apply (ext : Ext) (s : VisState) :
    (∀ vis, s.event_visualizer = some vis → vis.is_finished = false →
      logic ext s = some (s, [])) ∧
    (∀ vis e p, s.event_visualizer = some vis → vis.is_finished = true →
      s.event = some e → logic ext s = some p →
        p.2.countP Action.isEndCall = 1 ∧
        p.2.head? = some (Action.endCall vis.variant) ∧
        p.2.get? 1 = some (Action.applyEventCall e) ∧
        p.1.event_visualizer = none ∧
        p.1.event = none ∧
        p.1.game_state s.core.player_id = ext.applyEvent (s.game_state s.core.player_id) e ∧
        (s.selected_unit_id = none →
          p.1.pathfinders = s.pathfinders ∧ ∀ st u, Action.fillMapCall st u ∉ p.2) ∧
        (∀ uid, s.selected_unit_id = some uid →
          ∃ u, (ext.applyEvent (s.game_state s.core.player_id) e).findUnit uid = some u ∧
            p.1.pathfinders s.core.player_id = (s.pathfinders s.core.player_id).fill_map (ext.applyEvent (s.game_state s.core.player_id) e) u ∧
            Action.fillMapCall (ext.applyEvent (s.game_state s.core.player_id) e) u ∈ p.2)) ∧
    (∀ p v1, logic ext s = some p → Action.endCall v1 ∈ p.2 →
      ∃ vis, s.event_visualizer = some vis ∧ vis.is_finished = true ∧
        v1 = vis.variant) := by
  refine ⟨?_, ?_, ?_⟩
  · intro vis hev hf
    simp [logic, hev, hf]
  · intro vis e p hev hf hevt hl
    obtain ⟨p1, p2⟩ := p
    simp only [logic, hev, hf, if_true, hevt] at hl
    cases hsel : s.selected_unit_id with
    | none =>
      simp only [hsel, Option.some.injEq, Prod.mk.injEq] at hl
      obtain ⟨hl1, hl2⟩ := hl
      subst hl1
      subst hl2
      refine ⟨by simp [Action.isEndCall], rfl, rfl, rfl, rfl, by simp [hmUpdate_same], ?_, ?_⟩
      · intro _
        exact ⟨rfl, by simp⟩
      · intro uid huid
        simp at huid
    | some uid =>
      simp only [hsel] at hl
      cases hfu : (ext.applyEvent (s.game_state s.core.player_id) e).findUnit uid with
      | none => rw [hfu] at hl; simp at hl
      | some u =>
        rw [hfu] at hl
        simp only [Option.some.injEq, Prod.mk.injEq] at hl
        obtain ⟨hl1, hl2⟩ := hl
        subst hl1
        subst hl2
        refine ⟨by simp [Action.isEndCall], rfl, rfl, rfl, rfl, by simp [hmUpdate_same], ?_, ?_⟩
        · intro hnone
          simp at hnone
        · intro uid1 huid
          simp only [Option.some.injEq] at huid
          subst huid
          exact ⟨u, hfu, by simp [hmUpdate_same], by simp⟩
  · intro p v1 hl hmem
    obtain ⟨p1, p2⟩ := p
    cases hev : s.event_visualizer with
    | none =>
      simp only [logic, hev] at hl
      cases hq : s.core.events with
      | nil =>
        simp only [hq, Option.some.injEq, Prod.mk.injEq] at hl
        obtain ⟨hl1, hl2⟩ := hl
        subst hl2
        simp at hmem
      | cons e rest =>
        simp only [hq, Option.some.injEq, Prod.mk.injEq] at hl
        obtain ⟨hl1, hl2⟩ := hl
        subst hl2
        simp at hmem
    | some vis =>
      simp only [logic, hev] at hl
      cases hf : vis.is_finished with
      | false =>
        simp only [hf, Bool.false_eq_true, if_false, Option.some.injEq,
          Prod.mk.injEq] at hl
        obtain ⟨hl1, hl2⟩ := hl
        subst hl2
        simp at hmem
      | true =>
        refine ⟨vis, rfl, hf, ?_⟩
        simp only [hf, if_true] at hl
        cases hevt : s.event with
        | none => rw [hevt] at hl; simp at hl
        | some e =>
          rw [hevt] at hl
          cases hsel : s.selected_unit_id with
          | none =>
            simp only [hsel, Option.some.injEq, Prod.mk.injEq] at hl
            obtain ⟨hl1, hl2⟩ := hl
            subst hl2
            simp at hmem
            exact hmem
          | some uid =>
            simp only [hsel] at hl
            cases hfu : (ext.applyEvent (s.game_state s.core.player_id) e).findUnit uid with
            | none => rw [hfu] at hl; simp at hl
            | some u =>
              rw [hfu] at hl
              simp only [Option.some.injEq, Prod.mk.injEq] at hl
              obtain ⟨hl1, hl2⟩ := hl
              subst hl2
              simp at hmem
              exact hmem

/-- C3 witness: with a finished end-turn animation, a retained event
and unit 7 selected, the logic step calls end exactly once, clears the
visualizer and event, and refills the pathfinder. -/
theorem logic_end_exactly_once_then_apply_witness :
    ∃ p, logic ext0 stFin = some p ∧
      p.2.countP Action.isEndCall = 1 ∧
      p.1.event_visualizer = none ∧
      p.1.event = none := by
  refine ⟨_, rfl, ?_⟩
  have h := (logic_end_exactly_once_then_apply ext0 stFin).2.1 visFin
    (Event.endTurn 0 1) _ rfl rfl rfl rfl
  exact ⟨h.1, h.2.2.2.1, h.2.2.2.2.1⟩

end Marauder
